import Mathlib

/-!
Shallow embedding of the gong-mcp-server-pagination HTTP server
(`src/mcp-http-server.ts`): the OAuth authorization/token endpoints over the
module-level `oauthClients` / `oauthTokens` maps, the MCP protocol dispatcher
(`createMCPHandlers` / `handleMCPRequest`), the SSE push-channel paths
(`handleSSEConnection` and the GET branch of `handleMCPRequest`), and the
periodic session sweep.

Conventions of the embedding:
- JS `Map` objects are association lists with JS semantics (`mapGet`,
  `mapSet`, `mapDelete`); a JS `Map` never holds duplicate keys, so theorems
  about whole-store sweeps carry a `Nodup` hypothesis on the key list.
- `null`-able strings coming out of `URLSearchParams.get` / header lookup are
  `Option String`; JS truthiness of such a value (`null` and `""` are falsy)
  is `jsTruthy` / the default-filling `jsOr`.
- Millisecond clock readings (`Date.now()`, `getTime()`) are `Int`; each
  handler invocation takes one `now` parameter (the source reads the clock
  several times within microseconds of each other).
- Randomly generated identifiers (`randomUUID()`, the `auth_…` / `access_…` /
  `client_…` strings) are parameters of the handler functions.
- JSON result payloads of protocol handlers are abstracted to a label string
  carried by the frame; no claim inspects the payload beyond its presence.
-/

/-- JS truthiness of a nullable string: `null` and the empty string are falsy. -/
def jsTruthy : Option String → Bool
  | none => false
  | some s => s ≠ ""

/-- JS `x || d` for a nullable string `x`: the default replaces falsy values. -/
def jsOr (x : Option String) (d : String) : String :=
  match x with
  | none => d
  | some s => if s = "" then d else s

/-- JS template-literal rendering of a nullable string (`null` prints as "null"). -/
def jsShow : Option String → String
  | none => "null"
  | some s => s

/-- `Map.prototype.get`, over an association list (first binding wins). -/
def mapGet {α β : Type} [DecidableEq α] (m : List (α × β)) (k : α) : Option β :=
  match m with
  | [] => none
  | (k', v) :: t => if k' = k then some v else mapGet t k

/-- `Map.prototype.has`. -/
def mapHas {α β : Type} [DecidableEq α] (m : List (α × β)) (k : α) : Bool :=
  (mapGet m k).isSome

/-- `Map.prototype.set`: replace the existing binding in place, else append. -/
def mapSet {α β : Type} [DecidableEq α] (m : List (α × β)) (k : α) (v : β) :
    List (α × β) :=
  match m with
  | [] => [(k, v)]
  | (k', v') :: t => if k' = k then (k, v) :: t else (k', v') :: mapSet t k v

/-- `Map.prototype.delete`. -/
def mapDelete {α β : Type} [DecidableEq α] (m : List (α × β)) (k : α) :
    List (α × β) :=
  match m with
  | [] => []
  | (k', v) :: t => if k' = k then mapDelete t k else (k', v) :: mapDelete t k

/-- `PROTOCOL` base URL constant (the `RAILWAY_STATIC_URL` fallback). -/
def PROTOCOL : String := "https://gong-mcp-server-pagination-production.up.railway.app"

/-- A record of the `oauthClients` map. `client_id` is `Option String` because
the token endpoint stores the raw nullable `client_id` form field as the key
and in the record. -/
structure OAuthClient where
  client_id : Option String
  client_secret : String
  redirect_uris : List String
  grant_types : List String
  response_types : List String
  scope : String
  deriving DecidableEq, Repr

/-- A record of the `oauthTokens` map: both authorization codes and access
tokens live in this one map. `redirect_uri = none` models both a `null` field
(authorize called without `redirect_uri`) and the field being absent (access
tokens); no code path distinguishes the two. -/
structure GrantRecord where
  client_id : Option String
  redirect_uri : Option String
  scope : String
  expires_at : Int
  deriving DecidableEq, Repr

/-- The module-level OAuth state: `oauthClients` and `oauthTokens`. -/
structure OAuthState where
  oauthClients : List (Option String × OAuthClient)
  oauthTokens : List (String × GrantRecord)
  deriving DecidableEq, Repr

/-- Form fields of a `POST /token` body (`URLSearchParams.get` results). -/
structure TokenRequest where
  grant_type : Option String
  code : Option String
  client_id : Option String
  client_secret : Option String
  deriving DecidableEq, Repr

/-- Outcome written by `handleOAuthToken`. -/
inductive TokenResult where
  /-- `400 {error: "invalid_grant"}` -/
  | invalidGrant
  /-- `400 {error: "invalid_client"}` -/
  | invalidClient
  /-- `200 {access_token, token_type, expires_in, scope}` -/
  | success (access_token : String) (token_type : String) (expires_in : Nat)
      (scope : String)
  deriving DecidableEq, Repr

/-- The client record auto-registered by the token endpoint for an unknown
`client_id` (`handleOAuthToken`, "Auto-register unknown clients if needed"). -/
def tokenAutoClient (req : TokenRequest) : OAuthClient :=
  { client_id := req.client_id
    client_secret := jsOr req.client_secret ("secret_" ++ jsShow req.client_id)
    redirect_uris := [PROTOCOL ++ "/callback"]
    grant_types := ["authorization_code"]
    response_types := ["code"]
    scope := "gong:read" }

/-- `if (!oauthClients.has(clientId)) oauthClients.set(clientId, …)` in
`handleOAuthToken`. -/
def ensureTokenClient (clients : List (Option String × OAuthClient))
    (req : TokenRequest) : List (Option String × OAuthClient) :=
  if mapHas clients req.client_id then clients
  else mapSet clients req.client_id (tokenAutoClient req)

/-- The access-token record minted on a successful exchange. -/
def mintedToken (req : TokenRequest) (tokenData : GrantRecord) (now : Int) :
    GrantRecord :=
  { client_id := req.client_id
    redirect_uri := none
    scope := tokenData.scope
    expires_at := now + 3600000 }

/-- `handleOAuthToken` (`src/mcp-http-server.ts:1732-1806`), the body of the
synchronous `end` callback. `freshToken` is the generated `access_…` string.
The source guards with `!oauthTokens.has(code)` and then calls
`oauthTokens.get(code)`; here the two reads are the single `mapGet` (they
agree by definition of `has`). -/
def handleOAuthToken (st : OAuthState) (req : TokenRequest) (now : Int)
    (freshToken : String) : OAuthState × TokenResult :=
  let code := (req.code).getD ""
  if req.grant_type ≠ some "authorization_code" ∨ code = "" then
    (st, .invalidGrant)
  else
    match mapGet st.oauthTokens code with
    | none => (st, .invalidGrant)
    | some tokenData =>
      if tokenData.expires_at < now then
        ({ st with oauthTokens := mapDelete st.oauthTokens code }, .invalidGrant)
      else
        let clients₁ := ensureTokenClient st.oauthClients req
        match mapGet clients₁ req.client_id with
        | none => ({ st with oauthClients := clients₁ }, .invalidClient)
        | some _client =>
          -- "For MCP, accept any client secret or no secret": the supplied
          -- client_secret is never compared against the stored one.
          let tokens₁ := mapSet st.oauthTokens freshToken
            (mintedToken req tokenData now)
          ({ oauthClients := clients₁, oauthTokens := mapDelete tokens₁ code },
           .success freshToken "Bearer" 3600 tokenData.scope)

/-- Query parameters of `GET /authorize`. -/
structure AuthRequest where
  client_id : Option String
  redirect_uri : Option String
  state : Option String
  deriving DecidableEq, Repr

/-- Outcome written by `handleOAuthAuthorization`. -/
inductive AuthResult where
  /-- `400 {error: "invalid_request"}` -/
  | invalidRequest
  /-- `302` with a `Location` header -/
  | redirect (location : String)
  deriving DecidableEq, Repr

/-- The client record auto-registered by the authorization endpoint for an
unknown `client_id` ("Auto-register unknown clients for MCP compatibility"). -/
def authAutoClient (req : AuthRequest) : OAuthClient :=
  { client_id := req.client_id
    client_secret := "secret_" ++ jsShow req.client_id
    redirect_uris := [jsOr req.redirect_uri (PROTOCOL ++ "/callback")]
    grant_types := ["authorization_code"]
    response_types := ["code"]
    scope := "gong:read" }

/-- `handleOAuthAuthorization` (`src/mcp-http-server.ts:1687-1730`).
`freshCode` is the generated `auth_…` string. The `new URL` / `searchParams`
construction of the redirect target is modelled as string concatenation; no
claim inspects the location string beyond the response being a redirect. -/
def handleOAuthAuthorization (st : OAuthState) (req : AuthRequest) (now : Int)
    (freshCode : String) : OAuthState × AuthResult :=
  if jsTruthy req.client_id = false then (st, .invalidRequest)
  else
    let clients₁ :=
      if mapHas st.oauthClients req.client_id then st.oauthClients
      else mapSet st.oauthClients req.client_id (authAutoClient req)
    let tokens₁ := mapSet st.oauthTokens freshCode
      { client_id := req.client_id
        redirect_uri := req.redirect_uri
        scope := "gong:read"
        expires_at := now + 600000 }
    let callback := jsOr req.redirect_uri (PROTOCOL ++ "/callback")
    let location := callback ++ "?code=" ++ freshCode ++
      (if jsTruthy req.state then "&state=" ++ (req.state).getD "" else "")
    ({ oauthClients := clients₁, oauthTokens := tokens₁ }, .redirect location)

/-- The `sseResponse` handle held by a session: the underlying HTTP response
stream, reduced to the one property read by the router (`res.destroyed`). -/
structure Channel where
  destroyed : Bool
  deriving DecidableEq, Repr

/-- A record of the `activeSessions` map
(`{ lastActivity, initialized, sseResponse? }`). -/
structure Session where
  lastActivity : Int
  initialized : Bool
  sseResponse : Option Channel
  deriving DecidableEq, Repr

/-- `SESSION_TIMEOUT = 30 * 60 * 1000` (30 minutes, ms). -/
def SESSION_TIMEOUT : Int := 30 * 60 * 1000

/-- The `setInterval` period of the session sweep: `5 * 60 * 1000` ms. -/
def SWEEP_INTERVAL_MS : Nat := 5 * 60 * 1000

/-- The session sweep body (`src/mcp-http-server.ts:1471-1478`): delete every
session with `now - lastActivity > SESSION_TIMEOUT`. -/
def sweepSessions (st : List (String × Session)) (now : Int) :
    List (String × Session) :=
  match st with
  | [] => []
  | (sid, s) :: t =>
    if now - s.lastActivity > SESSION_TIMEOUT then sweepSessions t now
    else (sid, s) :: sweepSessions t now

/-- JSON-RPC message as parsed by `handleMCPRequest`. The `id` is `Option Int`
(a missing `id` is `none`; `JSON.stringify` drops an `undefined` id on the way
out, so `none` also models the absent member of a reply). `params` carries the
fields any handler reads. -/
structure MCPParams where
  name : Option String
  uri : Option String
  deriving DecidableEq, Repr

structure MCPRequest where
  id : Option Int
  method : String
  params : Option MCPParams
  deriving DecidableEq, Repr

/-- A JSON-RPC reply frame: a result (payload abstracted to a label) or an
error object `{code, message}` addressed to an id. -/
inductive Frame where
  | result (id : Option Int) (payload : String)
  | error (id : Option Int) (code : Int) (message : String)
  deriving DecidableEq, Repr

/-- Outcome of the ToolBackend interaction inside `handleToolCall`: the
serialized backend response, an unknown tool name (the `default` switch arm),
or any error thrown inside the handler's `try` (missing credentials, missing
or invalid arguments, backend fault) with its message. -/
inductive ToolCallOutcome where
  | ok (text : String)
  | unknownTool (name : String)
  | failed (message : String)
  deriving DecidableEq, Repr

/-- The three return shapes of `handleToolCall`
(`src/mcp-http-server.ts:1019-1116`); every path returns a frame addressed to
the request's id. -/
def toolCallFrame (id : Option Int) (outcome : ToolCallOutcome) : Frame :=
  match outcome with
  | .ok text => .result id text
  | .unknownTool n => .error id (-32601) ("Unknown tool: " ++ n)
  | .failed m =>
    .error id (-32603) ("Error occurred while making the request: " ++ m)

/-- `handlePromptGet`: `request.params?.name` selects one of the two fixed
prompts, otherwise `{-32602, "Prompt not found"}`. -/
def promptGetFrame (req : MCPRequest) : Frame :=
  match (req.params).bind MCPParams.name with
  | some "analyze_calls" => .result req.id "promptGetResult"
  | some "summarize_transcript" => .result req.id "promptGetResult"
  | _ => .error req.id (-32602) "Prompt not found"

/-- The handler table of `createMCPHandlers`
(`src/mcp-http-server.ts:1119-1134`). -/
inductive HandlerKind where
  | initReq | toolsList | toolCall | resourcesList | resourceRead
  | promptsList | promptGet | initializedNote | ping
  deriving DecidableEq, Repr

def mcpHandlers : List (String × HandlerKind) :=
  [("initialize", .initReq),
   ("tools/list", .toolsList),
   ("tools/call", .toolCall),
   ("resources/list", .resourcesList),
   ("resources/read", .resourceRead),
   ("prompts/list", .promptsList),
   ("prompts/get", .promptGet),
   ("notifications/initialized", .initializedNote),
   ("ping", .ping)]

/-- What invoking one handler on a request yields: a reply frame, `null`
(`handleInitialized` — "Notifications don't need responses"), or an exception
escaping the handler (`handleResourceRead` dereferences `request.params.uri`
outside any local `try`, so a missing `params` throws to the outer `catch`). -/
inductive DispatchOutcome where
  | reply (f : Frame)
  | noReply
  | thrown
  deriving DecidableEq, Repr

def runHandler (k : HandlerKind) (req : MCPRequest) (tool : ToolCallOutcome) :
    DispatchOutcome :=
  match k with
  | .initReq => .reply (.result req.id "initializeResult")
  | .toolsList => .reply (.result req.id "toolsListResult")
  | .toolCall => .reply (toolCallFrame req.id tool)
  | .resourcesList => .reply (.result req.id "resourcesListResult")
  | .resourceRead =>
    match req.params with
    | none => .thrown
    | some _ => .reply (.result req.id "resourceReadResult")
  | .promptsList => .reply (.result req.id "promptsListResult")
  | .promptGet => .reply (promptGetFrame req)
  | .initializedNote => .noReply
  | .ping => .reply (.result req.id "pingResult")

/-- The dispatch step of `handleMCPRequest`'s POST path: look the method up in
the handler table; an unknown method yields the `{-32601, "Method not found"}`
frame addressed to `request.id` (`src/mcp-http-server.ts:1546-1573`). -/
def dispatch (req : MCPRequest) (tool : ToolCallOutcome) : DispatchOutcome :=
  match mapGet mcpHandlers req.method with
  | some k => runHandler k req tool
  | none => .reply (.error req.id (-32601) "Method not found")

/-- Session resolution at the top of `handleMCPRequest`
(`src/mcp-http-server.ts:1500-1512`): header value or a fresh UUID; an
existing record is reused, a new one starts uninitialized with no channel;
`lastActivity` is refreshed either way. -/
def resolveSession (st : List (String × Session)) (sid : String) (now : Int) :
    Session :=
  match mapGet st sid with
  | some s => { s with lastActivity := now }
  | none => { lastActivity := now, initialized := false, sseResponse := none }

/-- `session.sseResponse && !session.sseResponse.destroyed`. -/
def channelLive : Option Channel → Bool
  | some ch => !ch.destroyed
  | none => false

/-- The synchronous HTTP reply of the POST path. -/
inductive HttpReply where
  /-- `200` with the frame as body -/
  | okFrame (f : Frame)
  /-- empty `200` (notification) -/
  | okEmpty
  /-- `200 {status: "sent_via_sse", sessionId}` -/
  | sseAck (sessionId : String)
  /-- `400` with the `{-32700, "Parse error"}` frame -/
  | badParse
  deriving DecidableEq, Repr

structure PostOutcome where
  sessions : List (String × Session)
  sessionId : String
  /-- frame written to the session's push channel, if any -/
  pushWrite : Option Frame
  http : HttpReply
  deriving DecidableEq, Repr

/-- The POST path of `handleMCPRequest` (`src/mcp-http-server.ts:1517-1606`):
resolve the session, parse the body (`body = none` models a `JSON.parse`
failure), mark the session initialized on `initialize`, dispatch, and route
the reply — to the live push channel with a `sent_via_sse` acknowledgment, or
directly as the HTTP response body. -/
def handleMCPPost (st : List (String × Session)) (headerSid : Option String)
    (freshSid : String) (now : Int) (body : Option MCPRequest)
    (tool : ToolCallOutcome) : PostOutcome :=
  let sid := jsOr headerSid freshSid
  let session := resolveSession st sid now
  match body with
  | none => ⟨mapSet st sid session, sid, none, .badParse⟩
  | some req =>
    let session :=
      if req.method = "initialize" then { session with initialized := true }
      else session
    let st' := mapSet st sid session
    match dispatch req tool with
    | .noReply => ⟨st', sid, none, .okEmpty⟩
    | .thrown => ⟨st', sid, none, .badParse⟩
    | .reply f =>
      if channelLive session.sseResponse then ⟨st', sid, some f, .sseAck sid⟩
      else ⟨st', sid, none, .okFrame f⟩

/-- Events written down an event stream. -/
inductive SSEEvent where
  /-- `{"type":"connection","sessionId":…}` -/
  | connection (sessionId : String)
  /-- the `notifications/capabilities` frame -/
  | capabilities
  /-- `{"type":"ping"}` -/
  | ping
  /-- `{"type":"heartbeat",…}` -/
  | heartbeat
  deriving DecidableEq, Repr

/-- What opening an event stream produces: the updated session map, the bound
session id, the events written immediately, and the periodic keep-alive event
with its `setInterval` period in milliseconds. -/
structure SSEOpenOutcome where
  sessions : List (String × Session)
  sessionId : String
  firstEvents : List SSEEvent
  keepAliveEvent : SSEEvent
  keepAlivePeriodMs : Nat
  deriving DecidableEq, Repr

/-- The GET branch of `handleMCPRequest` for an `Accept: text/event-stream`
request (`src/mcp-http-server.ts:1607-1628`): session resolved or created as
for POST, a `connection` event naming the session, then `{"type":"ping"}`
every 30000 ms; the session's `sseResponse` handle is never set. -/
def handleMCPGetEventStream (st : List (String × Session))
    (headerSid : Option String) (freshSid : String) (now : Int) :
    SSEOpenOutcome :=
  let sid := jsOr headerSid freshSid
  let session := resolveSession st sid now
  { sessions := mapSet st sid session
    sessionId := sid
    firstEvents := [.connection sid]
    keepAliveEvent := .ping
    keepAlivePeriodMs := 30000 }

/-- `handleSSEConnection` (`src/mcp-http-server.ts:1809-1869`), the `/sse`
endpoint: always a freshly generated session id, session stored with the
channel attached (`sseResponse: res`) and `initialized: true`; a `connection`
event naming the session is written first, then the capabilities
notification, then `{"type":"heartbeat"}` every 15000 ms. -/
def handleSSEConnection (st : List (String × Session)) (freshSid : String)
    (now : Int) (ch : Channel) : SSEOpenOutcome :=
  let session : Session :=
    { lastActivity := now, initialized := true, sseResponse := some ch }
  { sessions := mapSet st freshSid session
    sessionId := freshSid
    firstEvents := [.connection freshSid, .capabilities]
    keepAliveEvent := .heartbeat
    keepAlivePeriodMs := 15000 }

/-- One token-exchange attempt: the request together with the clock reading
and the generated token of that invocation. -/
structure ExchangeAttempt where
  req : TokenRequest
  now : Int
  freshToken : String
  deriving DecidableEq, Repr

/-- Sequential interleaving of token exchanges. The `end` callback of
`handleOAuthToken` is synchronous (no `await` between the `has` check and the
`delete`), so on Node's single-threaded event loop every concurrent exchange
executes as one indivisible step and any concurrent execution is one of these
interleavings. -/
def runExchanges (st : OAuthState) :
    List ExchangeAttempt → OAuthState × List TokenResult
  | [] => (st, [])
  | a :: rest =>
    let (st₁, r) := handleOAuthToken st a.req a.now a.freshToken
    let (st₂, rs) := runExchanges st₁ rest
    (st₂, r :: rs)

def TokenResult.isSuccess : TokenResult → Bool
  | .success _ _ _ _ => true
  | _ => false

/-- A registered client used by the concrete instantiations below. -/
def sampleClient : OAuthClient :=
  { client_id := some "alice"
    client_secret := "s1"
    redirect_uris := ["https://cb/x"]
    grant_types := ["authorization_code"]
    response_types := ["code"]
    scope := "gong:read" }

/-- A store holding `sampleClient` and one unconsumed code `"c1"` for it that
expires at t = 1000. -/
def sampleState : OAuthState :=
  { oauthClients := [(some "alice", sampleClient)]
    oauthTokens := [("c1",
      { client_id := some "alice", redirect_uri := some "https://cb/x"
        scope := "gong:read", expires_at := 1000 })] }

section MapLemmas

variable {α β : Type} [DecidableEq α]

theorem mapGet_mapSet_self (m : List (α × β)) (k : α) (v : β) :
    mapGet (mapSet m k v) k = some v := by
  induction m with
  | nil => simp [mapSet, mapGet]
  | cons p t ih =>
    obtain ⟨k', v'⟩ := p
    by_cases h : k' = k
    · simp [mapSet, mapGet, h]
    · simp [mapSet, mapGet, h, ih]

theorem mapGet_mapDelete_self (m : List (α × β)) (k : α) :
    mapGet (mapDelete m k) k = none := by
  induction m with
  | nil => simp [mapDelete, mapGet]
  | cons p t ih =>
    obtain ⟨k', v'⟩ := p
    by_cases h : k' = k
    · simp [mapDelete, h, ih]
    · simp [mapDelete, mapGet, h, ih]

theorem mapGet_eq_none_of_not_mem_keys (m : List (α × β)) (k : α) :
    k ∉ m.map Prod.fst → mapGet m k = none := by
  induction m with
  | nil => intro _; rfl
  | cons p t ih =>
    intro h
    obtain ⟨k', v'⟩ := p
    simp only [List.map_cons, List.mem_cons, not_or] at h
    have hne : k' ≠ k := fun hx => h.1 hx.symm
    simp [mapGet, hne, ih h.2]

end MapLemmas

/-- After the auto-registration step of the token endpoint, the lookup of
`client_id` always finds a record. -/
theorem mapGet_ensureTokenClient (clients : List (Option String × OAuthClient))
    (req : TokenRequest) :
    ∃ cl, mapGet (ensureTokenClient clients req) req.client_id = some cl := by
  unfold ensureTokenClient mapHas
  cases hx : mapGet clients req.client_id with
  | some cl => simp [hx]
  | none => simp [hx, mapGet_mapSet_self]

/-- Characterization of a valid exchange: correct grant type, truthy code,
present and unexpired record — the endpoint consumes the code, mints the
token and reports success. -/
theorem handleOAuthToken_valid (st : OAuthState) (req : TokenRequest)
    (now : Int) (tok : String) (c : String) (rec : GrantRecord)
    (hg : req.grant_type = some "authorization_code") (hc : req.code = some c)
    (hne : c ≠ "") (hget : mapGet st.oauthTokens c = some rec)
    (hexp : ¬ rec.expires_at < now) :
    handleOAuthToken st req now tok =
      ({ oauthClients := ensureTokenClient st.oauthClients req,
         oauthTokens :=
           mapDelete (mapSet st.oauthTokens tok (mintedToken req rec now)) c },
       .success tok "Bearer" 3600 rec.scope) := by
  obtain ⟨cl, hcl⟩ := mapGet_ensureTokenClient st.oauthClients req
  simp [handleOAuthToken, hc, hg, hne, hget, hexp, hcl]

/-- Every failure shape of the guard chain yields `invalid_grant`. -/
theorem handleOAuthToken_invalidGrant_of_absent (st : OAuthState)
    (req : TokenRequest) (now : Int) (tok : String)
    (h : mapGet st.oauthTokens ((req.code).getD "") = none) :
    handleOAuthToken st req now tok = (st, .invalidGrant) := by
  unfold handleOAuthToken
  by_cases hguard : req.grant_type ≠ some "authorization_code" ∨
      (req.code).getD "" = ""
  · simp [hguard]
  · simp [hguard, h]

/-- Inversion: a successful exchange pins down every guard along the way and
the resulting state. -/
theorem handleOAuthToken_success_inv (st : OAuthState) (req : TokenRequest)
    (now : Int) (tok : String) (st' : OAuthState) (t ty sc : String) (ei : Nat)
    (h : handleOAuthToken st req now tok = (st', .success t ty ei sc)) :
    ∃ rec : GrantRecord,
      req.grant_type = some "authorization_code" ∧ (req.code).getD "" ≠ "" ∧
      mapGet st.oauthTokens ((req.code).getD "") = some rec ∧
      ¬ rec.expires_at < now ∧
      t = tok ∧ ty = "Bearer" ∧ ei = 3600 ∧ sc = rec.scope ∧
      st' = { oauthClients := ensureTokenClient st.oauthClients req,
              oauthTokens :=
                mapDelete (mapSet st.oauthTokens tok (mintedToken req rec now))
                  ((req.code).getD "") } := by
  by_cases hguard : req.grant_type ≠ some "authorization_code" ∨
      (req.code).getD "" = ""
  · simp [handleOAuthToken, hguard] at h
  · push_neg at hguard
    cases hget : mapGet st.oauthTokens ((req.code).getD "") with
    | none =>
      rw [handleOAuthToken_invalidGrant_of_absent st req now tok hget] at h
      simp at h
    | some rec =>
      by_cases hexp : rec.expires_at < now
      · simp [handleOAuthToken, hguard.1, hguard.2, hget, hexp] at h
      · rw [handleOAuthToken_valid st req now tok ((req.code).getD "") rec
          hguard.1 (by cases hc : req.code with
            | none => rw [hc] at hguard; exact absurd rfl hguard.2
            | some c => simp [hc]) hguard.2 hget hexp] at h
        rw [Prod.mk.injEq] at h
        obtain ⟨h1, h2⟩ := h
        injection h2 with e1 e2 e3 e4
        exact ⟨rec, hguard.1, hguard.2, rfl, hexp, e1.symm, e2.symm, e3.symm,
          e4.symm, h1.symm⟩

/-- For a state in which the presented code is absent, every attempt in a run
returns `invalid_grant` and the state never changes. -/
theorem runExchanges_of_absent (st : OAuthState) (c : String)
    (attempts : List ExchangeAttempt)
    (hget : mapGet st.oauthTokens c = none)
    (hall : ∀ a ∈ attempts, a.req.code = some c) :
    runExchanges st attempts =
      (st, attempts.map fun _ => TokenResult.invalidGrant) := by
  induction attempts with
  | nil => rfl
  | cons a rest ih =>
    have hc : a.req.code = some c := hall a (by simp)
    have habs : mapGet st.oauthTokens ((a.req.code).getD "") = none := by
      rw [hc]; exact hget
    simp [runExchanges,
      handleOAuthToken_invalidGrant_of_absent st a.req a.now a.freshToken habs,
      ih fun b hb => hall b (by simp [hb])]

/-- C1: for every authorization code, at most one token exchange with that
code succeeds — a successful exchange removes the code from the grant store,
and any later exchange presenting the same code fails with `invalid_grant`. -/
theorem token_exchange_code_single_use (st : OAuthState) (req : TokenRequest)
    (now : Int) (tok : String) (st' : OAuthState) (t ty sc : String) (ei : Nat)
    (h : handleOAuthToken st req now tok = (st', .success t ty ei sc)) :
    (∀ c, req.code = some c → mapGet st'.oauthTokens c = none) ∧
    (∀ (req' : TokenRequest) (now' : Int) (tok' : String),
      req'.code = req.code →
      (handleOAuthToken st' req' now' tok').2 = .invalidGrant) := by
  obtain ⟨rec, hg, hne, hget, hexp, ht, hty, hei, hsc, hst⟩ :=
    handleOAuthToken_success_inv st req now tok st' t ty sc ei h
  subst hst
  constructor
  · intro c hc
    have hcd : (req.code).getD "" = c := by rw [hc]; rfl
    rw [← hcd]
    exact mapGet_mapDelete_self ..
  · intro req' now' tok' hcode
    rw [handleOAuthToken_invalidGrant_of_absent _ req' now' tok'
      (by rw [hcode]; exact mapGet_mapDelete_self ..)]

/-- C1 witness: a concrete successful exchange of code `"c1"` leaves the code
absent from the store. -/
theorem token_exchange_code_single_use_witness :
    mapGet ((handleOAuthToken sampleState
      { grant_type := some "authorization_code", code := some "c1",
        client_id := some "alice", client_secret := some "s1" }
      0 "t1").1).oauthTokens "c1" = none :=
  (token_exchange_code_single_use sampleState
    { grant_type := some "authorization_code", code := some "c1",
      client_id := some "alice", client_secret := some "s1" }
    0 "t1"
    (handleOAuthToken sampleState
      { grant_type := some "authorization_code", code := some "c1",
        client_id := some "alice", client_secret := some "s1" } 0 "t1").1
    "t1" "Bearer" "gong:read" 3600 (by decide)).1 "c1" rfl

/-- C3: a present-but-expired code yields `invalid_grant`, the same outcome
as a code that was never issued. -/
theorem token_exchange_expired_code_invalid_grant (st : OAuthState)
    (req : TokenRequest) (now : Int) (tok : String) (c : String)
    (rec : GrantRecord) (hc : req.code = some c) (hne : c ≠ "")
    (hget : mapGet st.oauthTokens c = some rec)
    (hexp : rec.expires_at < now) :
    (handleOAuthToken st req now tok).2 = .invalidGrant ∧
    ∀ st₂ : OAuthState, mapGet st₂.oauthTokens c = none →
      (handleOAuthToken st₂ req now tok).2 = .invalidGrant := by
  have hcd : (req.code).getD "" = c := by rw [hc]; rfl
  constructor
  · by_cases hgt : req.grant_type = some "authorization_code"
    · simp [handleOAuthToken, hgt, hcd, hne, hget, hexp]
    · simp [handleOAuthToken, hgt]
  · intro st₂ h2
    rw [handleOAuthToken_invalidGrant_of_absent st₂ req now tok
      (by rw [hcd]; exact h2)]

/-- C3 witness: the concrete code `"c1"` (expiring at t = 1000) exchanged at
t = 2000 returns `invalid_grant`. -/
theorem token_exchange_expired_code_invalid_grant_witness :
    (handleOAuthToken sampleState
      { grant_type := some "authorization_code", code := some "c1",
        client_id := some "alice", client_secret := some "s1" }
      2000 "t1").2 = .invalidGrant :=
  (token_exchange_expired_code_invalid_grant sampleState
    { grant_type := some "authorization_code", code := some "c1",
      client_id := some "alice", client_secret := some "s1" }
    2000 "t1" "c1"
    { client_id := some "alice", redirect_uri := some "https://cb/x",
      scope := "gong:read", expires_at := 1000 }
    rfl (by decide) rfl (by decide)).1

/-- C2 counterexample: a token exchange with a valid grant type, a valid
unexpired code, and a `client_secret` (`"wrong"`) that does not match the
owning client's stored secret (`"s1"`) nevertheless succeeds and mints an
access token — it does not fail with `invalid_client`. -/
theorem token_exchange_secret_mismatch_counterexample :
    sampleClient.client_secret = "s1" ∧
    (handleOAuthToken sampleState
      { grant_type := some "authorization_code", code := some "c1",
        client_id := some "alice", client_secret := some "wrong" }
      0 "t1").2 = .success "t1" "Bearer" 3600 "gong:read" ∧
    (handleOAuthToken sampleState
      { grant_type := some "authorization_code", code := some "c1",
        client_id := some "alice", client_secret := some "wrong" }
      0 "t1").2 ≠ .invalidClient := by
  refine ⟨rfl, by decide, by decide⟩

/-- C2 (amended): in a token exchange with a valid grant type and a valid
unexpired code, the supplied `client_secret` is never compared against the
owning client's stored secret; even on a mismatch the exchange succeeds with
an access token and `invalid_client` is not returned. -/
theorem token_exchange_ignores_client_secret (st : OAuthState)
    (req : TokenRequest) (now : Int) (tok : String) (c : String)
    (rec : GrantRecord) (client : OAuthClient)
    (hg : req.grant_type = some "authorization_code") (hc : req.code = some c)
    (hne : c ≠ "") (hget : mapGet st.oauthTokens c = some rec)
    (hexp : ¬ rec.expires_at < now)
    (_hclient : mapGet st.oauthClients req.client_id = some client)
    (_hmismatch : req.client_secret ≠ some client.client_secret) :
    (handleOAuthToken st req now tok).2 = .success tok "Bearer" 3600 rec.scope ∧
    (handleOAuthToken st req now tok).2 ≠ .invalidClient := by
  rw [handleOAuthToken_valid st req now tok c rec hg hc hne hget hexp]
  exact ⟨rfl, by simp⟩

/-- C2 witness: the amended statement at the concrete mismatched-secret
input. -/
theorem token_exchange_ignores_client_secret_witness :
    (handleOAuthToken sampleState
      { grant_type := some "authorization_code", code := some "c1",
        client_id := some "alice", client_secret := some "wrong" }
      0 "t1").2 = .success "t1" "Bearer" 3600 "gong:read" ∧
    (handleOAuthToken sampleState
      { grant_type := some "authorization_code", code := some "c1",
        client_id := some "alice", client_secret := some "wrong" }
      0 "t1").2 ≠ .invalidClient :=
  token_exchange_ignores_client_secret sampleState
    { grant_type := some "authorization_code", code := some "c1",
      client_id := some "alice", client_secret := some "wrong" }
    0 "t1" "c1"
    { client_id := some "alice", redirect_uri := some "https://cb/x",
      scope := "gong:read", expires_at := 1000 }
    sampleClient rfl rfl (by decide) rfl (by decide) rfl (by decide)

/-- C10: a token exchange with `grant_type = authorization_code` and a
present, unexpired code succeeds for any supplied `client_id` and
`client_secret` whatsoever, and the `invalid_client` branch of the token
endpoint is unreachable on every input. -/
theorem token_invalid_client_unreachable (st : OAuthState)
    (req : TokenRequest) (now : Int) (tok : String) :
    (handleOAuthToken st req now tok).2 ≠ .invalidClient ∧
    ∀ (c : String) (rec : GrantRecord),
      req.grant_type = some "authorization_code" → req.code = some c →
      c ≠ "" → mapGet st.oauthTokens c = some rec → ¬ rec.expires_at < now →
      (handleOAuthToken st req now tok).2 =
        .success tok "Bearer" 3600 rec.scope := by
  constructor
  · by_cases hguard : req.grant_type ≠ some "authorization_code" ∨
        (req.code).getD "" = ""
    · simp [handleOAuthToken, hguard]
    · push_neg at hguard
      cases hget : mapGet st.oauthTokens ((req.code).getD "") with
      | none =>
        rw [handleOAuthToken_invalidGrant_of_absent st req now tok hget]
        simp
      | some rec =>
        by_cases hexp : rec.expires_at < now
        · simp [handleOAuthToken, hguard.1, hguard.2, hget, hexp]
        · obtain ⟨cl, hcl⟩ := mapGet_ensureTokenClient st.oauthClients req
          simp [handleOAuthToken, hguard.1, hguard.2, hget, hexp, hcl]
  · intro c rec hg hc hne hget hexp
    rw [handleOAuthToken_valid st req now tok c rec hg hc hne hget hexp]

/-- C10 witness: a concrete exchange of the valid code `"c1"` by a client id
the store has never seen (`"zoe"`) with no secret at all still succeeds. -/
theorem token_invalid_client_unreachable_witness :
    (handleOAuthToken sampleState
      { grant_type := some "authorization_code", code := some "c1",
        client_id := some "zoe", client_secret := none }
      0 "t9").2 = .success "t9" "Bearer" 3600 "gong:read" :=
  (token_invalid_client_unreachable sampleState
    { grant_type := some "authorization_code", code := some "c1",
      client_id := some "zoe", client_secret := none } 0 "t9").2
    "c1"
    { client_id := some "alice", redirect_uri := some "https://cb/x",
      scope := "gong:read", expires_at := 1000 }
    rfl rfl (by decide) rfl (by decide)

/-- C4: among any (sequentially interleaved) set of token exchanges all
presenting the same valid, unexpired code, exactly one succeeds and every
other one returns `invalid_grant`. Each `handleOAuthToken` body runs without
suspension on the single-threaded event loop, so the interleaving of whole
exchanges is the concurrency model of the source, and consumption of the code
plus creation of the token is one indivisible step of it. -/
theorem concurrent_exchanges_single_success (st : OAuthState) (c : String)
    (rec : GrantRecord) (attempts : List ExchangeAttempt) (hne : c ≠ "")
    (hget : mapGet st.oauthTokens c = some rec)
    (hall : ∀ a ∈ attempts, a.req.grant_type = some "authorization_code" ∧
      a.req.code = some c ∧ ¬ rec.expires_at < a.now)
    (hnonempty : attempts ≠ []) :
    (((runExchanges st attempts).2.filter TokenResult.isSuccess).length = 1) ∧
    (∀ r ∈ (runExchanges st attempts).2, r.isSuccess = false →
      r = .invalidGrant) := by
  cases attempts with
  | nil => exact absurd rfl hnonempty
  | cons a rest =>
    obtain ⟨hg, hc, hexp⟩ := hall a (by simp)
    have hstep := handleOAuthToken_valid st a.req a.now a.freshToken c rec hg
      hc hne hget hexp
    have hrest := runExchanges_of_absent
      { oauthClients := ensureTokenClient st.oauthClients a.req,
        oauthTokens := mapDelete
          (mapSet st.oauthTokens a.freshToken (mintedToken a.req rec a.now)) c }
      c rest (mapGet_mapDelete_self ..)
      (fun b hb => (hall b (by simp [hb])).2.1)
    constructor
    · simp only [runExchanges, hstep, hrest, List.filter_cons]
      have htail : (rest.map fun _ => TokenResult.invalidGrant).filter
          TokenResult.isSuccess = [] := by
        rw [List.filter_eq_nil_iff]
        intro r hr
        obtain ⟨b, _, rfl⟩ := List.mem_map.mp hr
        simp [TokenResult.isSuccess]
      simp [TokenResult.isSuccess, htail]
    · intro r hr hf
      simp only [runExchanges, hstep, hrest] at hr
      rcases List.mem_cons.mp hr with h | h
      · subst h; simp [TokenResult.isSuccess] at hf
      · obtain ⟨b, _, rfl⟩ := List.mem_map.mp h
        rfl

/-- C4 witness: two concrete interleaved exchanges of the same code `"c1"`
produce exactly one success. -/
theorem concurrent_exchanges_single_success_witness :
    (((runExchanges sampleState
      [⟨{ grant_type := some "authorization_code", code := some "c1",
          client_id := some "alice", client_secret := some "s1" }, 0, "t1"⟩,
       ⟨{ grant_type := some "authorization_code", code := some "c1",
          client_id := some "bob", client_secret := none }, 5, "t2"⟩]).2.filter
      TokenResult.isSuccess).length = 1) :=
  (concurrent_exchanges_single_success sampleState "c1"
    { client_id := some "alice", redirect_uri := some "https://cb/x",
      scope := "gong:read", expires_at := 1000 }
    [⟨{ grant_type := some "authorization_code", code := some "c1",
        client_id := some "alice", client_secret := some "s1" }, 0, "t1"⟩,
     ⟨{ grant_type := some "authorization_code", code := some "c1",
        client_id := some "bob", client_secret := none }, 5, "t2"⟩]
    (by decide) rfl (by decide) (by decide)).1

/-- C6: an authorize call without `client_id` fails with `invalid_request`;
one with an unknown `client_id` succeeds (a redirect is issued) and creates a
client record whose `redirect_uris` list is exactly the supplied redirect
URI. -/
theorem authorize_missing_and_unknown_client (st : OAuthState) (now : Int)
    (fc : String) (r1 r2 : AuthRequest) (cid u : String)
    (h1 : r1.client_id = none) (h2 : r2.client_id = some cid) (hcne : cid ≠ "")
    (hu : r2.redirect_uri = some u) (hune : u ≠ "")
    (hnew : mapHas st.oauthClients (some cid) = false) :
    handleOAuthAuthorization st r1 now fc = (st, .invalidRequest) ∧
    (∃ loc, (handleOAuthAuthorization st r2 now fc).2 = .redirect loc) ∧
    (mapGet (handleOAuthAuthorization st r2 now fc).1.oauthClients
      (some cid)).map OAuthClient.redirect_uris = some [u] := by
  refine ⟨?_, ?_, ?_⟩
  · simp [handleOAuthAuthorization, jsTruthy, h1]
  · simp [handleOAuthAuthorization, jsTruthy, h2, hcne]
  · simp [handleOAuthAuthorization, jsTruthy, h2, hcne, hnew,
      mapGet_mapSet_self, authAutoClient, jsOr, hu, hune]

/-- C6 witness: the two authorize calls at concrete inputs — one with no
`client_id`, one with the unknown client `"nclient"` and redirect URI
`"https://cb/x"`. -/
theorem authorize_missing_and_unknown_client_witness :
    handleOAuthAuthorization { oauthClients := [], oauthTokens := [] }
      { client_id := none, redirect_uri := none, state := none } 0 "a1"
      = ({ oauthClients := [], oauthTokens := [] }, .invalidRequest) ∧
    (∃ loc, (handleOAuthAuthorization { oauthClients := [], oauthTokens := [] }
      { client_id := some "nclient", redirect_uri := some "https://cb/x",
        state := none } 0 "a1").2 = .redirect loc) ∧
    (mapGet (handleOAuthAuthorization { oauthClients := [], oauthTokens := [] }
      { client_id := some "nclient", redirect_uri := some "https://cb/x",
        state := none } 0 "a1").1.oauthClients
      (some "nclient")).map OAuthClient.redirect_uris = some ["https://cb/x"] :=
  authorize_missing_and_unknown_client { oauthClients := [], oauthTokens := [] }
    0 "a1" { client_id := none, redirect_uri := none, state := none }
    { client_id := some "nclient", redirect_uri := some "https://cb/x",
      state := none }
    "nclient" "https://cb/x" rfl rfl (by decide) rfl (by decide) rfl

/-- Inversion: only the method name `notifications/initialized` maps to the
no-reply handler in the dispatch table. -/
theorem mcpHandlers_initializedNote_inv (m : String)
    (h : mapGet mcpHandlers m = some .initializedNote) :
    m = "notifications/initialized" := by
  simp only [mcpHandlers, mapGet] at h
  split_ifs at h with h1 h2 h3 h4 h5 h6 h7 h8 h9 <;> simp_all

/-- A dispatched message yields no reply exactly when its method is
`notifications/initialized`. -/
theorem dispatch_eq_noReply_iff (req : MCPRequest) (tool : ToolCallOutcome) :
    dispatch req tool = .noReply ↔
      req.method = "notifications/initialized" := by
  constructor
  · intro hnr
    unfold dispatch at hnr
    cases hk : mapGet mcpHandlers req.method with
    | none => rw [hk] at hnr; simp at hnr
    | some k =>
      rw [hk] at hnr
      cases k with
      | initializedNote => exact mcpHandlers_initializedNote_inv req.method hk
      | resourceRead =>
        simp only [runHandler] at hnr
        cases hq : req.params with
        | none => rw [hq] at hnr; simp at hnr
        | some p => rw [hq] at hnr; simp at hnr
      | initReq => simp [runHandler] at hnr
      | toolsList => simp [runHandler] at hnr
      | toolCall => simp [runHandler] at hnr
      | resourcesList => simp [runHandler] at hnr
      | promptsList => simp [runHandler] at hnr
      | promptGet => simp [runHandler] at hnr
      | ping => simp [runHandler] at hnr
  · intro hm
    unfold dispatch
    rw [hm]
    rfl

/-- A dispatch only throws (to the outer `catch`) when the message carries no
`params` (the `resources/read` dereference). -/
theorem dispatch_eq_thrown_params (req : MCPRequest) (tool : ToolCallOutcome)
    (h : dispatch req tool = .thrown) : req.params = none := by
  unfold dispatch at h
  cases hk : mapGet mcpHandlers req.method with
  | none => rw [hk] at h; simp at h
  | some k =>
    rw [hk] at h
    cases k with
    | resourceRead =>
      simp only [runHandler] at h
      cases hq : req.params with
      | none => rfl
      | some p => rw [hq] at h; simp at h
    | initReq => simp [runHandler] at h
    | toolsList => simp [runHandler] at h
    | toolCall => simp [runHandler] at h
    | resourcesList => simp [runHandler] at h
    | promptsList => simp [runHandler] at h
    | promptGet => simp [runHandler] at h
    | initializedNote => simp [runHandler] at h
    | ping => simp [runHandler] at h

/-- C5 counterexample: a message with `params` but no `id` (a notification)
whose method is unknown does produce a reply frame — the synchronous HTTP
response body carries the `{-32601, "Method not found"}` error frame rather
than being empty. -/
theorem notification_unknown_method_reply_counterexample :
    (handleMCPPost [] none "s1" 0
      (some { id := none, method := "no/such-method",
              params := some { name := none, uri := none } })
      (.ok "tool")).http
      = .okFrame (.error none (-32601) "Method not found") ∧
    (handleMCPPost [] none "s1" 0
      (some { id := none, method := "no/such-method",
              params := some { name := none, uri := none } })
      (.ok "tool")).http ≠ .okEmpty := by
  refine ⟨rfl, by decide⟩

/-- C5 (amended): only the method `notifications/initialized` produces no
reply frame; a message with `params` and no `id` bearing any other method —
known or unknown — still produces a reply frame (delivered as the HTTP body,
or down the live push channel with an acknowledgment body). -/
theorem notification_no_reply_iff_initialized (st : List (String × Session))
    (hs : Option String) (fs : String) (now : Int) (req : MCPRequest)
    (tool : ToolCallOutcome) (p : MCPParams) (hp : req.params = some p) :
    ((handleMCPPost st hs fs now (some req) tool).http = .okEmpty ∧
     (handleMCPPost st hs fs now (some req) tool).pushWrite = none) ↔
    req.method = "notifications/initialized" := by
  have hsse : ∀ s : Session, ((if req.method = "initialize"
      then { s with initialized := true } else s)).sseResponse
      = s.sseResponse := by intro s; split <;> rfl
  cases hD : dispatch req tool with
  | noReply =>
    simp only [handleMCPPost, hD]
    simpa using (dispatch_eq_noReply_iff req tool).mp hD
  | thrown =>
    exact absurd (dispatch_eq_thrown_params req tool hD) (by simp [hp])
  | reply f =>
    have hne : ¬ req.method = "notifications/initialized" := by
      intro hm
      rw [(dispatch_eq_noReply_iff req tool).mpr hm] at hD
      exact DispatchOutcome.noConfusion hD
    simp only [handleMCPPost, hD]
    cases hl : channelLive ((if req.method = "initialize"
        then { resolveSession st (jsOr hs fs) now with initialized := true }
        else resolveSession st (jsOr hs fs) now)).sseResponse <;>
      simp [hl, hne]

/-- C5 witness: the amended equivalence at the concrete
`notifications/initialized` notification. -/
theorem notification_no_reply_iff_initialized_witness :
    (handleMCPPost [] none "s1" 0
      (some { id := none, method := "notifications/initialized",
              params := some { name := none, uri := none } })
      (.ok "tool")).http = .okEmpty :=
  ((notification_no_reply_iff_initialized [] none "s1" 0
    { id := none, method := "notifications/initialized",
      params := some { name := none, uri := none } }
    (.ok "tool") { name := none, uri := none } rfl).mpr rfl).1

/-- C7: a dispatched result frame is written to the session's push channel —
with the synchronous HTTP response reduced to a `sent_via_sse`
acknowledgment — exactly when the resolved session has a live (attached, not
destroyed) channel; otherwise the frame is the synchronous HTTP response
body. -/
theorem post_routes_by_push_channel (st : List (String × Session))
    (hs : Option String) (fs : String) (now : Int) (req : MCPRequest)
    (tool : ToolCallOutcome) (f : Frame)
    (hd : dispatch req tool = .reply f) :
    (channelLive (resolveSession st (jsOr hs fs) now).sseResponse = true →
      (handleMCPPost st hs fs now (some req) tool).pushWrite = some f ∧
      (handleMCPPost st hs fs now (some req) tool).http
        = .sseAck (jsOr hs fs)) ∧
    (channelLive (resolveSession st (jsOr hs fs) now).sseResponse = false →
      (handleMCPPost st hs fs now (some req) tool).pushWrite = none ∧
      (handleMCPPost st hs fs now (some req) tool).http = .okFrame f) := by
  have hsse : ((if req.method = "initialize"
      then { resolveSession st (jsOr hs fs) now with initialized := true }
      else resolveSession st (jsOr hs fs) now)).sseResponse
      = (resolveSession st (jsOr hs fs) now).sseResponse := by split <;> rfl
  constructor <;> intro hl <;>
    simp [handleMCPPost, hd, hsse, hl]

/-- C7 witness: a `ping` request on a session with a live push channel is
acknowledged with `sent_via_sse` and the result frame goes to the channel. -/
theorem post_routes_by_push_channel_witness :
    (handleMCPPost [("s", ⟨0, true, some ⟨false⟩⟩)] (some "s") "fresh" 5
      (some { id := some 1, method := "ping", params := some ⟨none, none⟩ })
      (.ok "x")).pushWrite = some (.result (some 1) "pingResult") ∧
    (handleMCPPost [("s", ⟨0, true, some ⟨false⟩⟩)] (some "s") "fresh" 5
      (some { id := some 1, method := "ping", params := some ⟨none, none⟩ })
      (.ok "x")).http = .sseAck "s" :=
  (post_routes_by_push_channel [("s", ⟨0, true, some ⟨false⟩⟩)] (some "s")
    "fresh" 5 { id := some 1, method := "ping", params := some ⟨none, none⟩ }
    (.ok "x") (.result (some 1) "pingResult") rfl).1 (by decide)

/-- C8 counterexample: opening an event stream via
`GET <rpc-endpoint>` with `Accept: text/event-stream` (the GET branch of
`handleMCPRequest`) does not register the channel with the session — the
stored session's `sseResponse` stays unset — and the keep-alive period is
30000 ms, not 15000 ms. -/
theorem push_channel_open_counterexample :
    (handleMCPGetEventStream [] none "s1" 0).keepAlivePeriodMs = 30000 ∧
    (handleMCPGetEventStream [] none "s1" 0).keepAlivePeriodMs ≠ 15000 ∧
    (mapGet (handleMCPGetEventStream [] none "s1" 0).sessions "s1").map
      Session.sseResponse = some none := by
  decide

/-- C8 (amended): on the rpc-endpoint GET with an event-stream accept
preference a handshake event naming the resolved-or-created session is
emitted first, but the channel is never registered with the session registry
(the session's channel handle is exactly what it was before) and the
keep-alive is a `ping` every 30 seconds; only the dedicated `/sse` endpoint
registers the channel via `attachChannel` — always for a freshly created
session — emits the handshake naming that session first, and emits a
heartbeat event every 15 seconds. -/
theorem push_channel_open_characterization (st st₂ : List (String × Session))
    (hs : Option String) (fs fs₂ : String) (now now₂ : Int) (ch : Channel) :
    ((handleMCPGetEventStream st hs fs now).firstEvents
       = [.connection (handleMCPGetEventStream st hs fs now).sessionId] ∧
     (handleMCPGetEventStream st hs fs now).keepAliveEvent = .ping ∧
     (handleMCPGetEventStream st hs fs now).keepAlivePeriodMs = 30000 ∧
     (mapGet (handleMCPGetEventStream st hs fs now).sessions
        (handleMCPGetEventStream st hs fs now).sessionId).map
       Session.sseResponse
       = some (resolveSession st (jsOr hs fs) now).sseResponse) ∧
    ((handleSSEConnection st₂ fs₂ now₂ ch).sessionId = fs₂ ∧
     (handleSSEConnection st₂ fs₂ now₂ ch).firstEvents
       = [.connection fs₂, .capabilities] ∧
     (handleSSEConnection st₂ fs₂ now₂ ch).keepAliveEvent = .heartbeat ∧
     (handleSSEConnection st₂ fs₂ now₂ ch).keepAlivePeriodMs = 15000 ∧
     (mapGet (handleSSEConnection st₂ fs₂ now₂ ch).sessions fs₂).map
       Session.sseResponse = some (some ch)) := by
  refine ⟨⟨rfl, rfl, rfl, ?_⟩, rfl, rfl, rfl, rfl, ?_⟩
  · simp [handleMCPGetEventStream, mapGet_mapSet_self]
  · simp [handleSSEConnection, mapGet_mapSet_self]

/-- Keys of the swept registry come from the original registry. -/
theorem mem_keys_sweepSessions {now : Int} :
    ∀ {t : List (String × Session)} {k : String},
      k ∈ (sweepSessions t now).map Prod.fst → k ∈ t.map Prod.fst := by
  intro t
  induction t with
  | nil => intro k h; exact h
  | cons p u ih =>
    intro k h
    obtain ⟨k', s⟩ := p
    by_cases he : now - s.lastActivity > SESSION_TIMEOUT
    · rw [sweepSessions, if_pos he] at h
      exact List.mem_cons_of_mem _ (ih h)
    · rw [sweepSessions, if_neg he] at h
      rcases List.mem_cons.mp h with h | h
      · simp [h]
      · exact List.mem_cons_of_mem _ (ih h)

/-- C9: the periodic sweep — run every 5 minutes — removes exactly the
sessions whose last activity predates `now` minus the 30-minute idle timeout
and returns every other session unchanged. -/
theorem session_sweep_exact (st : List (String × Session)) (now : Int)
    (hnd : (st.map Prod.fst).Nodup) :
    SESSION_TIMEOUT = 30 * 60 * 1000 ∧ SWEEP_INTERVAL_MS = 5 * 60 * 1000 ∧
    ∀ sid : String, mapGet (sweepSessions st now) sid =
      match mapGet st sid with
      | some s =>
        if now - s.lastActivity > SESSION_TIMEOUT then none else some s
      | none => none := by
  refine ⟨rfl, rfl, ?_⟩
  induction st with
  | nil => intro sid; rfl
  | cons p t ih =>
    intro sid
    obtain ⟨k, s⟩ := p
    simp only [List.map_cons, List.nodup_cons] at hnd
    by_cases hk : k = sid
    · subst hk
      by_cases he : now - s.lastActivity > SESSION_TIMEOUT
      · have habs : mapGet (sweepSessions t now) k = none :=
          mapGet_eq_none_of_not_mem_keys _ _
            fun hmem => hnd.1 (mem_keys_sweepSessions hmem)
        simp [sweepSessions, mapGet, he, habs]
      · simp [sweepSessions, mapGet, he]
    · by_cases he : now - s.lastActivity > SESSION_TIMEOUT
      · simpa [sweepSessions, mapGet, he, hk] using ih hnd.2 sid
      · simpa [sweepSessions, mapGet, he, hk] using ih hnd.2 sid

/-- C9 witness: at `now = 1800500` the sweep evicts the session idle since
t = 0 (idle 1800500 ms > 30 min) and keeps the one active at t = 1000. -/
theorem session_sweep_exact_witness :
    mapGet (sweepSessions
      [("old", ⟨0, false, none⟩), ("new", ⟨1000, false, none⟩)] 1800500)
      "old" = none ∧
    mapGet (sweepSessions
      [("old", ⟨0, false, none⟩), ("new", ⟨1000, false, none⟩)] 1800500)
      "new" = some ⟨1000, false, none⟩ := by
  have h := session_sweep_exact
    [("old", ⟨0, false, none⟩), ("new", ⟨1000, false, none⟩)] 1800500
    (by decide)
  exact ⟨(h.2.2 "old").trans (by decide), (h.2.2 "new").trans (by decide)⟩
